import Mathlib

/-!
A verification development for the `virotaxa` catalog pipeline.

The Python sources are shallowly embedded: a pandas `DataFrame` of
virus-host relationship rows becomes a `List Row`, column values that may
be `NaN`/absent become `Option` values, and each pipeline function from
`virotaxa.vhdb.filters`, `virotaxa.vhdb.taxonomy`, `virotaxa.catalog.builder`,
`virotaxa.catalog.validate` and `virotaxa.cache.registry` becomes a Lean
function of the same name.  Pandas-specific semantics that the code relies
on are modelled explicitly where they matter:

* boolean masks containing missing values treat the missing entries as
  `False` when used for row selection;
* `sort_values` on several keys is a stable lexicographic sort with missing
  comparison results placed last (`na_position="last"`), which we realise as
  a total-order sort after tie-breaking on the original row position; the
  single-key `sort_values` of the `prefer_human=False` branch uses pandas'
  default `kind='quicksort'`, which is *not* guaranteed stable, so theorems
  about that branch only use consequences that hold under any permutation
  of equal keys;
* `drop_duplicates(keep="first")` keeps the first row per key in the
  current row order.
-/

namespace Virotaxa

/-! ### Python string primitives

`str.strip`, `str.lower`, `str.split` / `re.split`, substring containment
(`in` / `str.contains(..., case=False, regex=True)` on patterns without
metacharacters) modelled on `List Char`. -/

/-- Characters stripped by Python `str.strip()` (ASCII whitespace). -/
def pySpace (c : Char) : Bool :=
  c = ' ' || c = '\t' || c = '\n' || c = '\x0d' || c = '\x0b' || c = '\x0c'

/-- Python `str.strip()`: drop leading and trailing whitespace. -/
def pyStrip (s : List Char) : List Char :=
  ((s.dropWhile pySpace).reverse.dropWhile pySpace).reverse

/-- Python `str.lower()` (ASCII case folding, which is all the inputs use). -/
def pyLower (s : List Char) : List Char :=
  s.map Char.toLower

/-- Splitting on single-character delimiters, keeping empty fields, as both
Python `str.split(";")` and `re.split(r"[,;]", s)` do. -/
def pySplit (delim : Char → Bool) : List Char → List (List Char)
  | [] => [[]]
  | c :: rest =>
    if delim c then
      [] :: pySplit delim rest
    else
      match pySplit delim rest with
      | [] => [[c]]
      | t :: ts => (c :: t) :: ts

/-- Python substring test `sub in hay` (executable form). -/
def strHasSub (hay sub : List Char) : Bool :=
  sub.isPrefixOf hay ||
    match hay with
    | [] => false
    | _ :: t => strHasSub t sub

/-- Case-insensitive substring test on strings, as used by the pandas
`str.contains(pat, case=False)` calls and the `x.lower() in y.lower()`
checks in the sources. -/
def containsCI (hay sub : String) : Bool :=
  strHasSub (pyLower hay.toList) (pyLower sub.toList)

/-! ### Data model

One virus-host relationship row of the VHDB table (`constants.VHDB_COLUMNS`),
restricted to the columns the pipeline reads.  `load_vhdb` coerces
`virus_tax_id` and `host_tax_id` to nullable integers, so absence is a
legitimate value for them, as it is for every text column. -/

structure Row where
  virus_tax_id : Option Int
  virus_name : Option String
  virus_lineage : Option String
  refseq_id : Option String
  host_tax_id : Option Int
  host_lineage : Option String
  pmid : Option Int
  evidence : Option String
deriving DecidableEq

/-- One output row of a built catalog (`build_catalog` record). -/
structure CatalogRow where
  taxid : Option Int
  name : Option String
  family : Option String
  order : Option String
  refseq_ids : List String
  evidence : Option String
  pmid : Option Int
deriving DecidableEq

/-- `constants.HUMAN_TAXID`. -/
def HUMAN_TAXID : Int := 9606

/-! ### `virotaxa.vhdb.taxonomy` -/

/-- The four extracted ranks returned by `extract_taxonomy`. -/
structure Taxonomy where
  family : Option String
  order : Option String
  cls : Option String
  phylum : Option String
deriving DecidableEq

/-- The all-`None` taxonomy record that `extract_taxonomy` starts from. -/
def Taxonomy.empty : Taxonomy := ⟨none, none, none, none⟩

/-- Python `s.endswith(t)` (executable form; `String.endsWith` does not
reduce inside the kernel). -/
def pyEndsWith (s t : String) : Bool :=
  t.toList.reverse.isPrefixOf s.toList.reverse

/-- One step of the classification loop in `extract_taxonomy`: assign a
stripped lineage segment to a rank by its suffix. -/
def classifySegment (acc : Taxonomy) (part : String) : Taxonomy :=
  if pyEndsWith part "viridae" then { acc with family := some part }
  else if pyEndsWith part "virales" then { acc with order := some part }
  else if pyEndsWith part "viricetes" then { acc with cls := some part }
  else if pyEndsWith part "viricota" then { acc with phylum := some part }
  else acc

/-- The stripped segments of a lineage string (`lineage.split(";")` followed
by `p.strip()` on each part). -/
def lineageParts (s : String) : List String :=
  (pySplit (· = ';') s.toList).map (fun l => String.mk (pyStrip l))

/-- `taxonomy.extract_taxonomy`: suffix-based rank extraction from an
optional semicolon-delimited lineage string. -/
def extract_taxonomy (lineage : Option String) : Taxonomy :=
  match lineage with
  | none => Taxonomy.empty
  | some s =>
    if s = "" then Taxonomy.empty
    else (lineageParts s).foldl classifySegment Taxonomy.empty

/-- `taxonomy.parse_refseq_ids`: split the RefSeq field on `,` or `;`, strip
each token, drop empties. -/
def parse_refseq_ids (refseq_field : Option String) : List String :=
  match refseq_field with
  | none => []
  | some s =>
    if s = "" then []
    else
      (((pySplit (fun c => c = ',' || c = ';') s.toList).map pyStrip).filter
        (fun l => l ≠ [])).map (fun l => String.mk l)

/-! ### `virotaxa.constants`

The fixed configuration sets.  Python sets become lists here; all uses are
membership / existential, so the order is immaterial. -/

/-- `constants.VALID_MODES`. -/
def VALID_MODES : List String := ["clinical", "pandemic", "mammal"]

/-- `constants.EVIDENCE_PRIORITY` plus the `.get(x, 99)` default used by
`deduplicate_by_evidence` (an absent evidence value also maps to 99). -/
def evidenceRank (e : Option String) : Nat :=
  match e with
  | some "Literature" => 0
  | some "RefSeq" => 1
  | some "UniProt" => 2
  | _ => 99

/-- `constants.BACTERIOPHAGE_FAMILIES`. -/
def BACTERIOPHAGE_FAMILIES : List String :=
  ["Siphoviridae", "Myoviridae", "Podoviridae", "Ackermannviridae", "Autographiviridae",
   "Chaseviridae", "Demerecviridae", "Drexlerviridae", "Guelinviridae", "Herelleviridae",
   "Rountreeviridae", "Salasmaviridae", "Schitoviridae", "Straboviridae", "Zobellviridae",
   "Microviridae", "Inoviridae", "Leviviridae", "Cystoviridae", "Fiersviridae",
   "Tectiviridae", "Corticoviridae", "Plasmaviridae", "Sphaerolipoviridae",
   "Finnlakeviridae", "Haloferuviridae", "Intestiviridae", "Crevaviridae",
   "Steigviridae", "Suoliviridae"]

/-- `constants.BACTERIOPHAGE_KEYWORDS` (note the space-bounded `" phage "`). -/
def BACTERIOPHAGE_KEYWORDS : List String :=
  ["bacteriophage", "bacterial virus", " phage ", "gokushovirus", "chlamydiamicrovirus",
   "crassphage", "crass-like", "siphovirus", "myovirus", "podovirus"]

/-- `constants.GREAT_APE_TAXIDS` (chimpanzee and bonobo). -/
def GREAT_APE_TAXIDS : List Int := [9598, 9597]

/-- `constants.VALID_PRIMATE_MODES`. -/
def VALID_PRIMATE_MODES : List String := ["none", "strict", "extended"]

/-! ### `virotaxa.vhdb.filters` -/

/-- `filters.filter_by_host`.  The `ValueError` on an invalid mode becomes
`none`.  In clinical mode the comparison `host_tax_id == 9606` is missing
for rows with an absent host id, and pandas row selection treats a missing
mask entry as `False`, so such rows are dropped.  In pandemic/mammal mode a
missing host lineage is first replaced by `""` (`fillna`). -/
def filter_by_host (df : List Row) (mode : String) : Option (List Row) :=
  if mode ∈ VALID_MODES then
    if mode = "clinical" then
      some (df.filter fun r => r.host_tax_id == some HUMAN_TAXID)
    else if mode = "pandemic" then
      some (df.filter fun r => containsCI (r.host_lineage.getD "") "Vertebrata")
    else
      some (df.filter fun r => containsCI (r.host_lineage.getD "") "Mammalia")
  else none

/-- The `notna & != ""` test of `filters.filter_with_refseq` (and of the
RefSeq requirement inside `get_primate_homologs`). -/
def hasRefseqVal : Option String → Bool
  | some s => s != ""
  | none => false

/-- `filters.filter_with_refseq`. -/
def filter_with_refseq (df : List Row) : List Row :=
  df.filter fun r => hasRefseqVal r.refseq_id

/-- The row classifier `is_bacteriophage` nested in
`filters.filter_bacteriophages`: a family name (lower-cased) occurring in
the lower-cased lineage, or a keyword occurring in
`lineage.lower() + " " + name.lower()`. -/
def is_bacteriophage (r : Row) : Bool :=
  let lineageLower := pyLower (r.virus_lineage.getD "").toList
  let nameLower := pyLower (r.virus_name.getD "").toList
  BACTERIOPHAGE_FAMILIES.any (fun fam => strHasSub lineageLower (pyLower fam.toList)) ||
    BACTERIOPHAGE_KEYWORDS.any (fun kw => strHasSub (lineageLower ++ ' ' :: nameLower) kw.toList)

/-- `filters.filter_bacteriophages`. -/
def filter_bacteriophages (df : List Row) (exclude : Bool) : List Row :=
  if exclude then df.filter (fun r => !(is_bacteriophage r))
  else df.filter is_bacteriophage

/-- `filters.get_primate_homologs`.  The `ValueError` on an invalid mode
becomes `none`.  In extended mode the mask is
`is_primate & ~is_human`; for a row with an absent host id `is_human` is a
missing value, `~missing` is missing, `True & missing` is missing, and a
missing mask entry deselects the row, so extended mode keeps exactly the
rows with a primate lineage and a present, non-human host id.  The trailing
family restriction is skipped when `families` is `None` *or empty* (Python
`if families:`), and a row with an absent lineage never passes it. -/
def get_primate_homologs (df : List Row) (mode : String) (families : Option (List String)) :
    Option (List Row) :=
  if mode ∈ VALID_PRIMATE_MODES then
    if mode = "none" then some []
    else
      let filtered :=
        if mode = "strict" then
          df.filter fun r =>
            match r.host_tax_id with
            | some h => h ∈ GREAT_APE_TAXIDS
            | none => false
        else
          df.filter fun r =>
            containsCI (r.host_lineage.getD "") "Primates" &&
              match r.host_tax_id with
              | some h => h != HUMAN_TAXID
              | none => false
      let withRefseq := filtered.filter fun r => hasRefseqVal r.refseq_id
      match families with
      | none => some withRefseq
      | some fams =>
        if fams.isEmpty then some withRefseq
        else
          some (withRefseq.filter fun r =>
            match r.virus_lineage with
            | some l => fams.any (fun fam => containsCI l fam)
            | none => false)
  else none

/-! ### Deduplication (`filters.deduplicate_by_evidence`)

`deduplicate_by_evidence` sorts on helper columns and keeps the first row
per `virus_tax_id`.  With `prefer_human` the sort keys are
`["_is_human", "_evidence_rank"]` with `ascending=[False, True]`; the
`_is_human` column is `host_tax_id == 9606`, which is a *missing* boolean
for rows with an absent host id, and pandas places missing keys last
(`na_position="last"`), giving the three-way order human < non-human <
absent-host.  Multi-key `sort_values` is a stable lexicographic sort, which
we realise as a total-order sort keyed additionally on the original row
position. -/

/-- The `_is_human` sort key as a rank: `True` sorts first (descending),
`False` next, and the missing comparison result for an absent host id last. -/
def humanClass (r : Row) : Nat :=
  match r.host_tax_id with
  | some h => if h = HUMAN_TAXID then 0 else 1
  | none => 2

/-- The composite sort key of `deduplicate_by_evidence` (smaller sorts
first). -/
def dedupKey (prefer_human : Bool) (r : Row) : Nat × Nat :=
  if prefer_human then (humanClass r, evidenceRank r.evidence)
  else (evidenceRank r.evidence, 0)

/-- Lexicographic comparison on (sort key, original position); total order
because positions are distinct. -/
def keyPosLe (prefer_human : Bool) (a b : Nat × Row) : Bool :=
  decide ((dedupKey prefer_human a.2).1 < (dedupKey prefer_human b.2).1 ∨
    ((dedupKey prefer_human a.2).1 = (dedupKey prefer_human b.2).1 ∧
      ((dedupKey prefer_human a.2).2 < (dedupKey prefer_human b.2).2 ∨
        ((dedupKey prefer_human a.2).2 = (dedupKey prefer_human b.2).2 ∧ a.1 ≤ b.1))))

/-- Insert into a sorted list, keeping the new element after every element
that compares below-or-equal (for the strict total order `keyPosLe` the
placement is unambiguous). -/
def insertLe {α : Type} (le : α → α → Bool) (a : α) : List α → List α
  | [] => [a]
  | b :: l => if le b a then b :: insertLe le a l else a :: b :: l

/-- Insertion sort: a structurally recursive realisation of the (stable)
pandas sort; sorting by the total order (key, original position) is the
stable sort by key. -/
def sortByLe {α : Type} (le : α → α → Bool) : List α → List α
  | [] => []
  | a :: l => insertLe le a (sortByLe le l)

/-- `drop_duplicates(subset=["virus_tax_id"], keep="first")`: keep the first
row per virus id in the current order. -/
def dropDupFirst (seen : List (Option Int)) : List (Nat × Row) → List (Nat × Row)
  | [] => []
  | a :: rest =>
    if a.2.virus_tax_id ∈ seen then dropDupFirst seen rest
    else a :: dropDupFirst (a.2.virus_tax_id :: seen) rest

/-- `filters.deduplicate_by_evidence`.  The position tie-break in
`keyPosLe` models the stable multi-key lexsort of the `prefer_human=True`
branch faithfully; the `prefer_human=False` branch sorts a single key with
pandas' default quicksort, which guarantees no particular order among equal
keys, so statements about that branch are restricted to consequences that
are invariant under permuting equal-key rows. -/
def deduplicate_by_evidence (df : List Row) (prefer_human : Bool) : List Row :=
  (dropDupFirst [] (sortByLe (keyPosLe prefer_human) df.enum)).map (·.2)

/-! ### `virotaxa.catalog.builder` -/

/-- The per-row record assembled at the end of `build_catalog`. -/
def buildRecord (r : Row) : CatalogRow :=
  { taxid := r.virus_tax_id
    name := r.virus_name
    family := (extract_taxonomy r.virus_lineage).family
    order := (extract_taxonomy r.virus_lineage).order
    refseq_ids := parse_refseq_ids r.refseq_id
    evidence := r.evidence
    pmid := r.pmid }

/-- `builder.build_catalog`, taking the already-loaded relationship table
(the source loads it from `vhdb_path` via `load_vhdb`).  `none` models the
`ValueError` raised for an invalid `mode` or `primate_homologs` value. -/
def build_catalog (df : List Row) (mode : String) (exclude_bacteriophages : Bool)
    (primate_homologs : String) (primate_families : Option (List String)) :
    Option (List CatalogRow) :=
  match filter_by_host df mode with
  | none => none
  | some filtered =>
    let unique := deduplicate_by_evidence filtered true
    let withRefseq0 := filter_with_refseq unique
    let withRefseq :=
      if exclude_bacteriophages then filter_bacteriophages withRefseq0 true else withRefseq0
    if primate_homologs ≠ "none" then
      match get_primate_homologs df primate_homologs primate_families with
      | none => none
      | some homologs =>
        let merged :=
          if homologs.length > 0 then
            let homologsUnique0 := deduplicate_by_evidence homologs false
            let homologsUnique :=
              if exclude_bacteriophages then filter_bacteriophages homologsUnique0 true
              else homologsUnique0
            let existingTaxids := withRefseq.map (·.virus_tax_id)
            withRefseq ++ homologsUnique.filter (fun r => r.virus_tax_id ∉ existingTaxids)
          else withRefseq
        some (merged.map buildRecord)
    else some (withRefseq.map buildRecord)

/-- The main-catalog stage of `build_catalog` (host filter, deduplication
with human preference, RefSeq requirement, optional bacteriophage
exclusion), named for the decomposition theorems. -/
def mainCatalogRows (df : List Row) (mode : String) (exclude_bacteriophages : Bool) :
    Option (List Row) :=
  (filter_by_host df mode).map fun filtered =>
    let unique := deduplicate_by_evidence filtered true
    let withRefseq := filter_with_refseq unique
    if exclude_bacteriophages then filter_bacteriophages withRefseq true else withRefseq

/-- The primate-homolog stage of `build_catalog` (homolog selection over
the *original* table, deduplication without human preference, the same
bacteriophage exclusion policy), named for the decomposition theorems. -/
def homologRows (df : List Row) (exclude_bacteriophages : Bool) (primate_homologs : String)
    (primate_families : Option (List String)) : Option (List Row) :=
  (get_primate_homologs df primate_homologs primate_families).map fun homologs =>
    let unique := deduplicate_by_evidence homologs false
    if exclude_bacteriophages then filter_bacteriophages unique true else unique

/-! ### `builder.save_catalog` and `metadata.generate_metadata`

`save_catalog` writes the catalog TSV and then calls `generate_metadata`
with keyword arguments.  The call itself is modelled: Python binds each
keyword argument to a declared parameter of the callee (which has no
`**kwargs`) and raises `TypeError` before the callee body runs when a
keyword matches no parameter. -/

/-- The declared parameter names of `metadata.generate_metadata`. -/
def generate_metadata_params : List String :=
  ["catalog", "source_path", "mode", "exclude_bacteriophages", "virotaxa_version"]

/-- The keyword-argument names `builder.save_catalog` passes to
`generate_metadata`. -/
def save_catalog_metadata_kwargs : List String :=
  ["catalog", "source_path", "mode", "exclude_bacteriophages", "primate_homologs",
   "primate_families", "virotaxa_version"]

/-- Python keyword-call binding: every keyword must name a declared
parameter, else the call raises `TypeError`. -/
def pyKeywordCallOk (params kwargs : List String) : Bool :=
  kwargs.all (· ∈ params)

/-- The serialized RefSeq column entry of the TSV export:
`";".join(x) if x else ""`. -/
def exportRefseqIds (ids : List String) : String :=
  match ids with
  | [] => ""
  | _ => String.intercalate ";" ids

/-- Observable outcome of `save_catalog`: whether the TSV was written, the
serialized RefSeq column, whether the metadata sidecar was written, and the
exception raised, if any. -/
structure SaveResult where
  tsv_written : Bool
  exported_refseq : List String
  metadata_written : Bool
  raised : Option String
deriving DecidableEq

/-- `builder.save_catalog`: export the TSV, then call `generate_metadata`
with the keyword arguments listed above, writing the sidecar only if that
call binds. -/
def save_catalog (catalog : List CatalogRow) (mode : String)
    (exclude_bacteriophages : Bool) (primate_homologs : String)
    (primate_families : Option (List String)) : SaveResult :=
  let _ := (mode, exclude_bacteriophages, primate_homologs, primate_families)
  let exported := catalog.map (fun c => exportRefseqIds c.refseq_ids)
  if pyKeywordCallOk generate_metadata_params save_catalog_metadata_kwargs then
    { tsv_written := true, exported_refseq := exported, metadata_written := true,
      raised := none }
  else
    { tsv_written := true, exported_refseq := exported, metadata_written := false,
      raised := some "TypeError" }

/-! ### `virotaxa.catalog.validate` -/

/-- `validate.ValidationResult`. -/
structure ValidationResult where
  is_valid : Bool
  errors : List String
  warnings : List String
  info : List (String × String)
deriving DecidableEq

/-- The fields of the parsed metadata sidecar that `validate_catalog`
reads. -/
structure MetaDoc where
  version : Option String
  total_taxa : Option Int
  unique_families : Option Int
  source_file_path : Option String
  source_file_sha256 : Option String
  has_generation : Bool
  generation_timestamp : Option String
  generation_version : Option String
  has_parameters : Bool
  param_mode : Option String
  param_exclude_bacteriophages : Option Bool
deriving DecidableEq

/-- The facts about the file system that `validate_catalog` observes. -/
structure ValidateEnv where
  catalog_exists : Bool
  metadata_exists : Bool
  metadata : Option MetaDoc
  catalog : Option (List (Option String))
  source_exists : Bool
  current_source_hash : String
deriving DecidableEq

/-- `catalog["family"].nunique()`: distinct non-missing family values. -/
def nuniqueFamilies (fams : List (Option String)) : Nat :=
  (fams.filterMap id).dedup.length

/-- Python `str(bool)`. -/
def pyBoolStr (b : Bool) : String := if b then "True" else "False"

/-- Python truthiness of an optional string (`None` and `""` are falsy). -/
def pyTruthyStr : Option String → Bool
  | some s => s != ""
  | none => false

/-- `validate.validate_catalog` over the observed environment: the parsed
catalog is represented by its `family` column (the only data the function
reads besides the row count). -/
def validate_catalog (env : ValidateEnv) : ValidationResult :=
  if !env.catalog_exists then
    { is_valid := false, errors := ["Catalog file not found"], warnings := [], info := [] }
  else if !env.metadata_exists then
    { is_valid := false, errors := ["Metadata file not found"], warnings := [], info := [] }
  else
    match env.metadata with
    | none =>
      { is_valid := false, errors := ["Invalid metadata JSON"], warnings := [], info := [] }
    | some md =>
      match env.catalog with
      | none =>
        { is_valid := false, errors := ["Failed to parse catalog"], warnings := [], info := [] }
      | some cat =>
        let info0 := [("catalog_rows", toString cat.length),
                      ("metadata_version", md.version.getD "unknown")]
        let countCheck :=
          match md.total_taxa with
          | some expected =>
            if (cat.length : Int) ≠ expected then
              (["Taxa count mismatch: catalog has " ++ toString cat.length ++
                  ", metadata says " ++ toString expected],
               ([] : List (String × String)))
            else ([], [("taxa_count_verified", "yes")])
          | none => ([], [])
        let familyCheck :=
          match md.unique_families with
          | some expected =>
            if (nuniqueFamilies cat : Int) ≠ expected then
              (["Family count mismatch: " ++ toString (nuniqueFamilies cat) ++ " vs " ++
                  toString expected],
               ([] : List (String × String)))
            else ([], [("family_count_verified", "yes")])
          | none => ([], [])
        let sourceCheck :=
          if pyTruthyStr md.source_file_path && pyTruthyStr md.source_file_sha256 then
            match md.source_file_sha256 with
            | some h =>
              if env.source_exists then
                if env.current_source_hash = h then
                  (([] : List String), [("source_hash_verified", "yes")])
                else (["Source VHDB has changed since catalog was generated"], [])
              else
                (["Source VHDB not found"],
                 [("recorded_source_hash", String.mk (h.toList.take 16) ++ "...")])
            | none => ([], [])
          else ([], [])
        let genInfo :=
          if md.has_generation then
            [("generated_at", md.generation_timestamp.getD "unknown"),
             ("virotaxa_version", md.generation_version.getD "unknown")]
          else []
        let paramInfo :=
          if md.has_parameters then
            [("mode", md.param_mode.getD "unknown"),
             ("exclude_bacteriophages",
              match md.param_exclude_bacteriophages with
              | some b => pyBoolStr b
              | none => "unknown")]
          else []
        { is_valid := countCheck.1.isEmpty
          errors := countCheck.1
          warnings := familyCheck.1 ++ sourceCheck.1
          info := info0 ++ countCheck.2 ++ familyCheck.2 ++ sourceCheck.2 ++ genInfo ++
            paramInfo }

/-! ### `virotaxa.cache.registry` -/

/-- The error outcomes of `registry.get_cached` (both are `ValueError`s in
the source; they are distinguished here as the spec's error taxonomy
does). -/
inductive CacheError
  | invalidParameter
  | ambiguous
deriving DecidableEq

/-- One registry entry: full content hash mapped to the cached file name. -/
structure CacheEntry where
  hash : String
  filename : String
deriving DecidableEq

/-- The registry document plus which cached files exist on disk. -/
structure CacheState where
  entries : List CacheEntry
  existing_files : List String
deriving DecidableEq

/-- The match loop of `get_cached`: registry entries whose hash starts with
the prefix and whose cached file exists. -/
def cacheMatches (st : CacheState) (hash_pre : String) : List CacheEntry :=
  st.entries.filter fun e =>
    hash_pre.toList.isPrefixOf e.hash.toList && e.filename ∈ st.existing_files

/-- `registry.get_cached`: resolve a cached file by hash prefix.
`.ok none` is the not-found outcome (the source returns `None`). -/
def get_cached (st : CacheState) (hash_pre : String) : Except CacheError (Option String) :=
  if hash_pre.length < 8 then .error .invalidParameter
  else
    match cacheMatches st hash_pre with
    | [] => .ok none
    | [e] => .ok (some e.filename)
    | _ => .error .ambiguous

/-! ### Concrete sample rows used by witnesses and counterexamples -/

/-- A human-host virus row (clinical mode keeps it). -/
def rowHIV : Row :=
  { virus_tax_id := some 11676
    virus_name := some "Human immunodeficiency virus 1"
    virus_lineage := some "Viruses; Ortervirales; Retroviridae"
    refseq_id := some "NC_001802.1"
    host_tax_id := some 9606
    host_lineage := some "Eukaryota; Chordata; Vertebrata; Mammalia; Primates"
    pmid := some 9641678
    evidence := some "Literature" }

/-- A chimpanzee-host herpesvirus row: excluded by every host mode, picked
up by the primate-homolog path. -/
def rowChimpHerpes : Row :=
  { virus_tax_id := some 188763
    virus_name := some "Panine herpesvirus 2"
    virus_lineage := some "Viruses; Herpesvirales; Herpesviridae"
    refseq_id := some "NC_003521.1"
    host_tax_id := some 9598
    host_lineage := some "Eukaryota; Chordata; Mammalia; Primates"
    pmid := none
    evidence := some "RefSeq" }

/-- The phage row of the repository's sample fixture. -/
def rowSiphovirus : Row :=
  { virus_tax_id := some 2681611
    virus_name := some "Siphovirus contig89"
    virus_lineage := some "Viruses; Uroviricota; Caudoviricetes"
    refseq_id := some "NC_024391.1"
    host_tax_id := some 9606
    host_lineage := some "Eukaryota; Chordata; Vertebrata; Mammalia; Primates"
    pmid := none
    evidence := some "RefSeq" }

/-- A row whose name contains "macrophage": the space-bounded `" phage "`
keyword must not match it. -/
def rowMacrophage : Row :=
  { virus_tax_id := some 77777
    virus_name := some "Macrophage colony virus"
    virus_lineage := some "Viruses"
    refseq_id := some "NC_077777.1"
    host_tax_id := some 9606
    host_lineage := some "Eukaryota; Vertebrata; Mammalia"
    pmid := none
    evidence := some "Literature" }

/-- A human-host row whose RefSeq field is a lone blank: it passes the
non-empty filter yet parses to an empty accession list. -/
def rowBlankRefseq : Row :=
  { virus_tax_id := some 424242
    virus_name := some "Blankfield virus"
    virus_lineage := some "Viruses; Flaviviridae"
    refseq_id := some " "
    host_tax_id := some 9606
    host_lineage := some "Eukaryota; Vertebrata; Mammalia"
    pmid := none
    evidence := some "Literature" }

/-- Duplicate pair: same virus, absent host id with top-priority evidence. -/
def rowDupNoHost : Row :=
  { virus_tax_id := some 555
    virus_name := some "Dup virus"
    virus_lineage := some "Viruses"
    refseq_id := some "NC_000555.1"
    host_tax_id := none
    host_lineage := none
    pmid := none
    evidence := some "Literature" }

/-- Duplicate pair: same virus, present non-human host with bottom-priority
evidence. -/
def rowDupOtherHost : Row :=
  { virus_tax_id := some 555
    virus_name := some "Dup virus"
    virus_lineage := some "Viruses"
    refseq_id := some "NC_000555.2"
    host_tax_id := some 10090
    host_lineage := some "Eukaryota; Vertebrata; Mammalia"
    pmid := none
    evidence := some "UniProt" }

/-! ### Claim-level predicates -/

/-- The bacteriophage classification as the spec states it: a family name
occurring case-insensitively in the lineage, or a keyword occurring in the
lower-cased lineage-plus-name text (the code joins them with a single
space). -/
def IsBacteriophage (r : Row) : Prop :=
  (∃ fam ∈ BACTERIOPHAGE_FAMILIES,
      pyLower fam.toList <:+: pyLower (r.virus_lineage.getD "").toList) ∨
  (∃ kw ∈ BACTERIOPHAGE_KEYWORDS,
      kw.toList <:+:
        pyLower (r.virus_lineage.getD "").toList ++ ' ' :: pyLower (r.virus_name.getD "").toList)

/-! ## Theorems -/

/-! ### Substring and classification facts -/

theorem strHasSub_iff (hay sub : List Char) :
    strHasSub hay sub = true ↔ sub <:+: hay := by
  induction hay with
  | nil =>
    simp only [strHasSub, Bool.or_false]
    constructor
    · intro h
      exact (List.isPrefixOf_iff_prefix.mp h).isInfix
    · intro h
      exact List.isPrefixOf_iff_prefix.mpr (List.eq_nil_of_infix_nil h ▸ List.nil_prefix)
  | cons c t ih =>
    rw [List.infix_cons_iff]
    constructor
    · intro h
      rcases Bool.or_eq_true_iff.mp h with h1 | h2
      · exact Or.inl (List.isPrefixOf_iff_prefix.mp h1)
      · exact Or.inr (ih.mp h2)
    · intro h
      rcases h with h1 | h2
      · exact Bool.or_eq_true_iff.mpr (Or.inl (List.isPrefixOf_iff_prefix.mpr h1))
      · exact Bool.or_eq_true_iff.mpr (Or.inr (ih.mpr h2))

theorem containsCI_iff (hay sub : String) :
    containsCI hay sub = true ↔ pyLower sub.toList <:+: pyLower hay.toList :=
  strHasSub_iff _ _

theorem pyEndsWith_iff (s t : String) :
    pyEndsWith s t = true ↔ t.toList <:+ s.toList := by
  rw [pyEndsWith, List.isPrefixOf_iff_prefix, List.reverse_prefix]

example :
    extract_taxonomy (some "Viruses; Riboviria; Orthornavirae; Flaviviridae; Flavivirus")
      = { family := some "Flaviviridae", order := none, cls := none, phylum := none } := by
  decide

example : parse_refseq_ids (some "NC_001802.1, NC_001803.1") = ["NC_001802.1", "NC_001803.1"] := by
  decide

example : parse_refseq_ids (some "NC_001802.1;NC_001803.1") = ["NC_001802.1", "NC_001803.1"] := by
  decide

example : parse_refseq_ids (some " ") = [] := by decide

theorem getLast?_cons_or {α : Type} (a : α) (l : List α) :
    (a :: l).getLast? = l.getLast?.or (some a) := by
  induction l generalizing a with
  | nil => simp
  | cons b t ih =>
    rw [List.getLast?_cons_cons, ih b]
    cases t.getLast? <;> simp

theorem classifySegment_family (acc : Taxonomy) (p : String) :
    (classifySegment acc p).family =
      if pyEndsWith p "viridae" then some p else acc.family := by
  unfold classifySegment
  cases h1 : pyEndsWith p "viridae" <;> cases h2 : pyEndsWith p "virales" <;>
    cases h3 : pyEndsWith p "viricetes" <;> cases h4 : pyEndsWith p "viricota" <;>
      simp [h1, h2, h3, h4]

theorem classifySegment_order (acc : Taxonomy) (p : String) :
    (classifySegment acc p).order =
      if pyEndsWith p "viridae" then acc.order
      else if pyEndsWith p "virales" then some p else acc.order := by
  unfold classifySegment
  cases h1 : pyEndsWith p "viridae" <;> cases h2 : pyEndsWith p "virales" <;>
    cases h3 : pyEndsWith p "viricetes" <;> cases h4 : pyEndsWith p "viricota" <;>
      simp [h1, h2, h3, h4]

theorem classifySegment_cls (acc : Taxonomy) (p : String) :
    (classifySegment acc p).cls =
      if pyEndsWith p "viridae" || pyEndsWith p "virales" then acc.cls
      else if pyEndsWith p "viricetes" then some p else acc.cls := by
  unfold classifySegment
  cases h1 : pyEndsWith p "viridae" <;> cases h2 : pyEndsWith p "virales" <;>
    cases h3 : pyEndsWith p "viricetes" <;> cases h4 : pyEndsWith p "viricota" <;>
      simp [h1, h2, h3, h4]

theorem classifySegment_phylum (acc : Taxonomy) (p : String) :
    (classifySegment acc p).phylum =
      if pyEndsWith p "viridae" || pyEndsWith p "virales" || pyEndsWith p "viricetes" then
        acc.phylum
      else if pyEndsWith p "viricota" then some p else acc.phylum := by
  unfold classifySegment
  cases h1 : pyEndsWith p "viridae" <;> cases h2 : pyEndsWith p "virales" <;>
    cases h3 : pyEndsWith p "viricetes" <;> cases h4 : pyEndsWith p "viricota" <;>
      simp [h1, h2, h3, h4]

/-- A string cannot end with two suffixes of which neither is a suffix of
the other. -/
theorem pyEndsWith_excl (p t₁ t₂ : String)
    (h₁ : pyEndsWith t₂ t₁ = false) (h₂ : pyEndsWith t₁ t₂ = false)
    (e₁ : pyEndsWith p t₁ = true) (e₂ : pyEndsWith p t₂ = true) : False := by
  rcases List.suffix_or_suffix_of_suffix ((pyEndsWith_iff _ _).mp e₁)
      ((pyEndsWith_iff _ _).mp e₂) with h | h
  · rw [← pyEndsWith_iff] at h
    rw [h₁] at h
    exact Bool.false_ne_true h
  · rw [← pyEndsWith_iff] at h
    rw [h₂] at h
    exact Bool.false_ne_true h

/-- The four rank suffixes are pairwise exclusive, so the `elif` cascade in
`extract_taxonomy` lets each rank be described independently. -/
theorem classifySegment_order_eq (acc : Taxonomy) (p : String) :
    (classifySegment acc p).order = if pyEndsWith p "virales" then some p else acc.order := by
  rw [classifySegment_order]
  cases h1 : pyEndsWith p "viridae" with
  | false => rfl
  | true =>
    cases h2 : pyEndsWith p "virales" with
    | false => rfl
    | true => exact (pyEndsWith_excl p "viridae" "virales" (by decide) (by decide) h1 h2).elim

theorem classifySegment_cls_eq (acc : Taxonomy) (p : String) :
    (classifySegment acc p).cls = if pyEndsWith p "viricetes" then some p else acc.cls := by
  rw [classifySegment_cls]
  cases h3 : pyEndsWith p "viricetes" with
  | false =>
    cases h1 : pyEndsWith p "viridae" <;> cases h2 : pyEndsWith p "virales" <;> rfl
  | true =>
    cases h1 : pyEndsWith p "viridae" with
    | true => exact (pyEndsWith_excl p "viridae" "viricetes" (by decide) (by decide) h1 h3).elim
    | false =>
      cases h2 : pyEndsWith p "virales" with
      | true => exact (pyEndsWith_excl p "virales" "viricetes" (by decide) (by decide) h2 h3).elim
      | false => rfl

theorem classifySegment_phylum_eq (acc : Taxonomy) (p : String) :
    (classifySegment acc p).phylum = if pyEndsWith p "viricota" then some p else acc.phylum := by
  rw [classifySegment_phylum]
  cases h4 : pyEndsWith p "viricota" with
  | false =>
    cases h1 : pyEndsWith p "viridae" <;> cases h2 : pyEndsWith p "virales" <;>
      cases h3 : pyEndsWith p "viricetes" <;> rfl
  | true =>
    cases h1 : pyEndsWith p "viridae" with
    | true => exact (pyEndsWith_excl p "viridae" "viricota" (by decide) (by decide) h1 h4).elim
    | false =>
      cases h2 : pyEndsWith p "virales" with
      | true => exact (pyEndsWith_excl p "virales" "viricota" (by decide) (by decide) h2 h4).elim
      | false =>
        cases h3 : pyEndsWith p "viricetes" with
        | true =>
          exact (pyEndsWith_excl p "viricetes" "viricota" (by decide) (by decide) h3 h4).elim
        | false => rfl

/-- The last matching segment per rank wins: folding the classification step
over the segments leaves, in each rank, the last segment with that rank's
suffix (or the starting value when none matches). -/
theorem foldl_classify_proj (proj : Taxonomy → Option String) (pred : String → Bool)
    (hstep : ∀ acc p, proj (classifySegment acc p) = if pred p then some p else proj acc)
    (parts : List String) (acc : Taxonomy) :
    proj (parts.foldl classifySegment acc) = ((parts.filter pred).getLast?).or (proj acc) := by
  induction parts generalizing acc with
  | nil => simp
  | cons p ps ih =>
    rw [List.foldl_cons, ih, List.filter_cons]
    cases h : pred p with
    | false => simp [hstep, h]
    | true =>
      simp only [if_pos rfl, hstep, h, if_true, getLast?_cons_or]
      cases (ps.filter pred).getLast? <;> simp

/-- C8: `extract_taxonomy` is a total function over optional strings: it
splits the lineage on `;`, trims each segment, assigns a segment ending in
`viridae` to family, `virales` to order, `viricetes` to class and
`viricota` to phylum, with the latest matching segment per rank winning;
absent or empty input yields all four ranks unset; and on
`"Viruses; Riboviria; Orthornavirae; Flaviviridae; Flavivirus"` it yields
family `"Flaviviridae"` with order unset. -/
theorem extract_taxonomy_spec :
    extract_taxonomy none = Taxonomy.empty ∧
    extract_taxonomy (some "") = Taxonomy.empty ∧
    (∀ s : String,
      (extract_taxonomy (some s)).family
          = ((lineageParts s).filter fun p => pyEndsWith p "viridae").getLast? ∧
      (extract_taxonomy (some s)).order
          = ((lineageParts s).filter fun p => pyEndsWith p "virales").getLast? ∧
      (extract_taxonomy (some s)).cls
          = ((lineageParts s).filter fun p => pyEndsWith p "viricetes").getLast? ∧
      (extract_taxonomy (some s)).phylum
          = ((lineageParts s).filter fun p => pyEndsWith p "viricota").getLast?) ∧
    extract_taxonomy (some "Viruses; Riboviria; Orthornavirae; Flaviviridae; Flavivirus")
      = { family := some "Flaviviridae", order := none, cls := none, phylum := none } := by
  refine ⟨rfl, rfl, fun s => ?_, by decide⟩
  by_cases hs : s = ""
  · subst hs
    exact ⟨by decide, by decide, by decide, by decide⟩
  · have he : extract_taxonomy (some s) = (lineageParts s).foldl classifySegment Taxonomy.empty := by
      simp [extract_taxonomy, hs]
    refine ⟨?_, ?_, ?_, ?_⟩
    · rw [he, foldl_classify_proj Taxonomy.family _ classifySegment_family]
      simp [Taxonomy.empty]
    · rw [he, foldl_classify_proj Taxonomy.order _ classifySegment_order_eq]
      simp [Taxonomy.empty]
    · rw [he, foldl_classify_proj Taxonomy.cls _ classifySegment_cls_eq]
      simp [Taxonomy.empty]
    · rw [he, foldl_classify_proj Taxonomy.phylum _ classifySegment_phylum_eq]
      simp [Taxonomy.empty]

/-! ### Bacteriophage filtering (C6) -/

theorem is_bacteriophage_iff (r : Row) :
    is_bacteriophage r = true ↔ IsBacteriophage r := by
  simp only [is_bacteriophage, IsBacteriophage, Bool.or_eq_true, List.any_eq_true,
    strHasSub_iff]

/-- C6: `filter_bacteriophages` classifies a row as bacteriophage exactly
when its lineage contains (case-insensitively) one of the fixed family
names, or the lower-cased lineage-plus-name text contains one of the fixed
keyword substrings (with the bare token `phage` space-bounded, so a
"macrophage" name does not match while "Siphovirus contig89" does); with
`exclude=True` it keeps exactly the non-matching input rows, with
`exclude=False` exactly the matching ones. -/
theorem filter_bacteriophages_spec :
    (∀ (df : List Row) (r : Row),
      (r ∈ filter_bacteriophages df true ↔ r ∈ df ∧ ¬ IsBacteriophage r) ∧
      (r ∈ filter_bacteriophages df false ↔ r ∈ df ∧ IsBacteriophage r)) ∧
    is_bacteriophage rowMacrophage = false ∧
    is_bacteriophage rowSiphovirus = true := by
  refine ⟨fun df r => ⟨?_, ?_⟩, by decide, by decide⟩
  · simp [filter_bacteriophages, List.mem_filter, ← is_bacteriophage_iff]
  · simp [filter_bacteriophages, List.mem_filter, ← is_bacteriophage_iff]

/-! ### Host filtering (C7) -/

/-- C7: for every valid mode the output of `filter_by_host` is a sublist of
the input; in clinical mode a row is kept exactly when its host identifier
is 9606; in pandemic (mammal) mode exactly when its host lineage contains
the case-insensitive substring "Vertebrata" ("Mammalia"); rows with an
absent host lineage are excluded in the lineage-based modes. -/
theorem filter_by_host_spec :
    ∀ (df : List Row) (mode : String) (out : List Row),
      filter_by_host df mode = some out →
      List.Sublist out df ∧
      (mode = "clinical" →
        ∀ r, r ∈ out ↔ r ∈ df ∧ r.host_tax_id = some HUMAN_TAXID) ∧
      (mode = "pandemic" →
        ∀ r, r ∈ out ↔ r ∈ df ∧
          pyLower "Vertebrata".toList <:+: pyLower (r.host_lineage.getD "").toList) ∧
      (mode = "mammal" →
        ∀ r, r ∈ out ↔ r ∈ df ∧
          pyLower "Mammalia".toList <:+: pyLower (r.host_lineage.getD "").toList) ∧
      (∀ r, r.host_lineage = none → mode ≠ "clinical" → r ∉ out) := by
  intro df mode out h
  have hm : mode ∈ VALID_MODES := by
    by_contra hm
    simp [filter_by_host, hm] at h
  have hcases : mode = "clinical" ∨ mode = "pandemic" ∨ mode = "mammal" := by
    simpa [VALID_MODES] using hm
  rcases hcases with hc | hc | hc <;> subst hc
  · have hout : out = df.filter fun r => r.host_tax_id == some HUMAN_TAXID := by
      simpa [filter_by_host, VALID_MODES] using h.symm
    subst hout
    refine ⟨List.filter_sublist df, fun _ r => ?_, fun hc => absurd hc (by decide),
      fun hc => absurd hc (by decide), fun r _ hne => absurd rfl hne⟩
    simp [List.mem_filter]
  · have hout : out = df.filter fun r => containsCI (r.host_lineage.getD "") "Vertebrata" := by
      simpa [filter_by_host, VALID_MODES] using h.symm
    subst hout
    refine ⟨List.filter_sublist df, fun hc => absurd hc (by decide), fun _ r => ?_,
      fun hc => absurd hc (by decide), fun r hl _ hmem => ?_⟩
    · simp [List.mem_filter, containsCI_iff]
    · rw [List.mem_filter, hl] at hmem
      exact absurd hmem.2 (by decide)
  · have hout : out = df.filter fun r => containsCI (r.host_lineage.getD "") "Mammalia" := by
      simpa [filter_by_host, VALID_MODES] using h.symm
    subst hout
    refine ⟨List.filter_sublist df, fun hc => absurd hc (by decide),
      fun hc => absurd hc (by decide), fun _ r => ?_, fun r hl _ hmem => ?_⟩
    · simp [List.mem_filter, containsCI_iff]
    · rw [List.mem_filter, hl] at hmem
      exact absurd hmem.2 (by decide)

theorem filter_by_host_spec_witness :
    rowHIV ∈ [rowHIV] ↔
      rowHIV ∈ [rowHIV, rowChimpHerpes] ∧ rowHIV.host_tax_id = some HUMAN_TAXID :=
  (filter_by_host_spec [rowHIV, rowChimpHerpes] "clinical" [rowHIV] (by decide)).2.1 rfl rowHIV

/-! ### Cache retrieval (C10) -/

/-- C10: `get_cached` fails as InvalidParameter for every prefix shorter
than 8 characters, fails as Ambiguous whenever the prefix matches more than
one cache entry, and succeeds with a file only when the prefix matches
exactly one entry (returning `None`, the not-found outcome, when it matches
none). -/
theorem get_cached_spec :
    ∀ (st : CacheState) (p : String),
      (p.length < 8 → get_cached st p = .error .invalidParameter) ∧
      (¬ p.length < 8 → 1 < (cacheMatches st p).length →
        get_cached st p = .error .ambiguous) ∧
      (∀ f, get_cached st p = .ok (some f) →
        ¬ p.length < 8 ∧ ∃ e, cacheMatches st p = [e] ∧ e.filename = f) ∧
      (get_cached st p = .ok none → cacheMatches st p = []) := by
  intro st p
  by_cases hlen : p.length < 8
  · refine ⟨fun _ => by simp [get_cached, hlen], fun h => absurd hlen h, fun f hf => ?_,
      fun hf => ?_⟩
    · rw [get_cached, if_pos hlen] at hf
      cases hf
    · rw [get_cached, if_pos hlen] at hf
      cases hf
  · refine ⟨fun h => absurd h hlen, fun _ hgt => ?_, fun f hf => ?_, fun hf => ?_⟩
    · rw [get_cached, if_neg hlen]
      rcases hmm : cacheMatches st p with _ | ⟨e, _ | ⟨e2, rest⟩⟩
      · rw [hmm] at hgt
        exact absurd hgt (by simp)
      · rw [hmm] at hgt
        exact absurd hgt (by simp)
      · rfl
    · rw [get_cached, if_neg hlen] at hf
      rcases hmm : cacheMatches st p with _ | ⟨e, _ | ⟨e2, rest⟩⟩
      · rw [hmm] at hf
        cases hf
      · rw [hmm] at hf
        exact ⟨hlen, e, rfl, by cases hf; rfl⟩
      · rw [hmm] at hf
        cases hf
    · rw [get_cached, if_neg hlen] at hf
      rcases hmm : cacheMatches st p with _ | ⟨e, _ | ⟨e2, rest⟩⟩
      · rfl
      · rw [hmm] at hf
        cases hf
      · rw [hmm] at hf
        cases hf

theorem get_cached_spec_witness :
    get_cached
      { entries := [{ hash := "abcdef0123456789", filename := "vhdb_abcdef012345.tsv" },
                    { hash := "abcdef01aaaaaaaa", filename := "vhdb_abcdef01aaaa.tsv" }],
        existing_files := ["vhdb_abcdef012345.tsv", "vhdb_abcdef01aaaa.tsv"] }
      "abcdef01" = .error .ambiguous :=
  (get_cached_spec
      { entries := [{ hash := "abcdef0123456789", filename := "vhdb_abcdef012345.tsv" },
                    { hash := "abcdef01aaaaaaaa", filename := "vhdb_abcdef01aaaa.tsv" }],
        existing_files := ["vhdb_abcdef012345.tsv", "vhdb_abcdef01aaaa.tsv"] }
      "abcdef01").2.1 (by decide) (by decide)

/-! ### Saving a catalog (C3) -/

/-- C3: for every catalog and parameter combination, `save_catalog` writes
the catalog TSV and then raises `TypeError` before the metadata sidecar is
created, because it calls `generate_metadata` with the keyword arguments
`primate_homologs` and `primate_families` that `generate_metadata`'s
signature does not accept; `save_catalog` never returns successfully. -/
theorem save_catalog_spec :
    ∀ (catalog : List CatalogRow) (mode : String) (eb : Bool) (ph : String)
      (pf : Option (List String)),
      (save_catalog catalog mode eb ph pf).tsv_written = true ∧
      (save_catalog catalog mode eb ph pf).metadata_written = false ∧
      (save_catalog catalog mode eb ph pf).raised = some "TypeError" ∧
      pyKeywordCallOk generate_metadata_params save_catalog_metadata_kwargs = false := by
  intro catalog mode eb ph pf
  have h : pyKeywordCallOk generate_metadata_params save_catalog_metadata_kwargs = false := by
    decide
  refine ⟨?_, ?_, ?_, h⟩ <;> simp [save_catalog, h]

/-! ### Catalog validation (C9) -/

/-! ### Deduplication order lemmas -/

theorem keyPosLe_refl (p : Bool) (a : Nat × Row) : keyPosLe p a a = true := by
  simp [keyPosLe]

theorem keyPosLe_total (p : Bool) (a b : Nat × Row) :
    (keyPosLe p a b || keyPosLe p b a) = true := by
  simp only [keyPosLe, Bool.or_eq_true, decide_eq_true_eq]
  omega

theorem keyPosLe_trans (p : Bool) (a b c : Nat × Row) (h₁ : keyPosLe p a b = true)
    (h₂ : keyPosLe p b c = true) : keyPosLe p a c = true := by
  simp only [keyPosLe, decide_eq_true_eq] at h₁ h₂ ⊢
  omega

theorem keyPosLe_antisymm_idx (p : Bool) (a b : Nat × Row) (h₁ : keyPosLe p a b = true)
    (h₂ : keyPosLe p b a = true) : a.1 = b.1 := by
  simp only [keyPosLe, decide_eq_true_eq] at h₁ h₂
  omega

theorem insertLe_perm {α : Type} (le : α → α → Bool) (a : α) (l : List α) :
    (insertLe le a l).Perm (a :: l) := by
  induction l with
  | nil => simp [insertLe]
  | cons b t ih =>
    simp only [insertLe]
    by_cases h : le b a
    · rw [if_pos h]
      exact (ih.cons b).trans (List.Perm.swap a b t)
    · rw [if_neg h]

theorem sortByLe_perm {α : Type} (le : α → α → Bool) (l : List α) :
    (sortByLe le l).Perm l := by
  induction l with
  | nil => simp [sortByLe]
  | cons a t ih =>
    simp only [sortByLe]
    exact (insertLe_perm le a (sortByLe le t)).trans (ih.cons a)

theorem insertLe_pairwise {α : Type} (le : α → α → Bool)
    (htrans : ∀ a b c, le a b = true → le b c = true → le a c = true)
    (htotal : ∀ a b, (le a b || le b a) = true)
    (a : α) (l : List α) (h : l.Pairwise (fun x y => le x y = true)) :
    (insertLe le a l).Pairwise (fun x y => le x y = true) := by
  induction l with
  | nil => simp [insertLe]
  | cons b t ih =>
    rcases List.pairwise_cons.mp h with ⟨hb, ht⟩
    simp only [insertLe]
    by_cases hba : le b a = true
    · rw [if_pos hba]
      refine List.pairwise_cons.mpr ⟨?_, ih ht⟩
      intro x hx
      rcases List.mem_cons.mp ((insertLe_perm le a t).mem_iff.mp hx) with hx' | hx'
      · exact hx' ▸ hba
      · exact hb x hx'
    · rw [if_neg hba]
      have hab : le a b = true := by
        rcases Bool.or_eq_true_iff.mp (htotal a b) with h1 | h1
        · exact h1
        · exact absurd h1 hba
      refine List.pairwise_cons.mpr ⟨?_, h⟩
      intro x hx
      rcases List.mem_cons.mp hx with hx | hx
      · exact hx ▸ hab
      · exact htrans a b x hab (hb x hx)

theorem sortByLe_pairwise {α : Type} (le : α → α → Bool)
    (htrans : ∀ a b c, le a b = true → le b c = true → le a c = true)
    (htotal : ∀ a b, (le a b || le b a) = true) (l : List α) :
    (sortByLe le l).Pairwise (fun x y => le x y = true) := by
  induction l with
  | nil => simp [sortByLe]
  | cons a t ih =>
    simp only [sortByLe]
    exact insertLe_pairwise le htrans htotal a (sortByLe le t) ih

theorem dropDupFirst_subset (l : List (Nat × Row)) :
    ∀ (seen : List (Option Int)) (x : Nat × Row), x ∈ dropDupFirst seen l → x ∈ l := by
  induction l with
  | nil => intro seen x h; simp [dropDupFirst] at h
  | cons a rest ih =>
    intro seen x h
    simp only [dropDupFirst] at h
    by_cases ha : a.2.virus_tax_id ∈ seen
    · rw [if_pos ha] at h
      exact List.mem_cons_of_mem a (ih seen x h)
    · rw [if_neg ha] at h
      rcases List.mem_cons.mp h with h | h
      · exact h ▸ List.mem_cons_self a rest
      · exact List.mem_cons_of_mem a (ih _ x h)

theorem dropDupFirst_mem_iff (l : List (Nat × Row)) :
    ∀ (seen : List (Option Int)) (x : Nat × Row),
      x ∈ dropDupFirst seen l ↔
        x.2.virus_tax_id ∉ seen ∧
          l.find? (fun y => y.2.virus_tax_id == x.2.virus_tax_id) = some x := by
  induction l with
  | nil => intro seen x; simp [dropDupFirst]
  | cons a rest ih =>
    intro seen x
    simp only [dropDupFirst]
    by_cases ha : a.2.virus_tax_id ∈ seen
    · rw [if_pos ha]
      by_cases hk : a.2.virus_tax_id = x.2.virus_tax_id
    -- a's key already seen: a is dropped and (when keys agree) x is blocked
      · constructor
        · intro hx
          exact absurd (hk ▸ ha) ((ih seen x).mp hx).1
        · rintro ⟨hns, _⟩
          exact absurd (hk ▸ ha) hns
      · rw [ih seen x, List.find?_cons_of_neg]
        simp [hk]
    · rw [if_neg ha]
      by_cases hxa : x = a
      · subst hxa
        simp only [List.mem_cons, true_or, true_iff]
        exact ⟨ha, List.find?_cons_of_pos _ (by simp)⟩
      · rw [List.mem_cons, or_iff_right hxa, ih _ x]
        by_cases hk : a.2.virus_tax_id = x.2.virus_tax_id
        · rw [List.find?_cons_of_pos _ (by simp [hk])]
          constructor
          · rintro ⟨hns, _⟩
            rw [List.mem_cons] at hns
            push_neg at hns
            exact (hns.1 hk.symm).elim
          · rintro ⟨_, hfind⟩
            exact absurd (Option.some.inj hfind) (fun h => hxa h.symm)
        · rw [List.find?_cons_of_neg _ (by simp [hk])]
          constructor
          · rintro ⟨hns, hfind⟩
            exact ⟨fun h => hns (List.mem_cons_of_mem _ h), hfind⟩
          · rintro ⟨hns, hfind⟩
            refine ⟨fun h => ?_, hfind⟩
            rcases List.mem_cons.mp h with h | h
            · exact hk h.symm
            · exact hns h

theorem dropDupFirst_keys_nodup (l : List (Nat × Row)) :
    ∀ seen : List (Option Int),
      ((dropDupFirst seen l).map (fun a => a.2.virus_tax_id)).Nodup ∧
        ∀ x ∈ dropDupFirst seen l, x.2.virus_tax_id ∉ seen := by
  induction l with
  | nil => intro seen; simp [dropDupFirst]
  | cons a rest ih =>
    intro seen
    simp only [dropDupFirst]
    by_cases ha : a.2.virus_tax_id ∈ seen
    · rw [if_pos ha]
      exact ih seen
    · rw [if_neg ha]
      refine ⟨?_, ?_⟩
      · rw [List.map_cons, List.nodup_cons]
        refine ⟨fun hmem => ?_, (ih _).1⟩
        rcases List.mem_map.mp hmem with ⟨x, hx, hkey⟩
        exact ((ih _).2 x hx) (hkey ▸ List.mem_cons_self _ _)
      · intro x hx
        rcases List.mem_cons.mp hx with hx | hx
        · exact hx ▸ ha
        · exact fun hmem => (ih _).2 x hx (List.mem_cons_of_mem _ hmem)

/-- In a list sorted by `keyPosLe` with pairwise-distinct positions, `find?`
on a virus id returns exactly the `keyPosLe`-least element carrying that
id. -/
theorem find?_key_sorted (p : Bool) (l : List (Nat × Row))
    (hsort : l.Pairwise (fun a b => keyPosLe p a b = true))
    (hidx : l.Pairwise (fun a b => a.1 ≠ b.1)) (x : Nat × Row) :
    l.find? (fun y => y.2.virus_tax_id == x.2.virus_tax_id) = some x ↔
      x ∈ l ∧ ∀ q ∈ l, q.2.virus_tax_id = x.2.virus_tax_id → keyPosLe p x q = true := by
  induction l with
  | nil => simp
  | cons a rest ih =>
    rcases List.pairwise_cons.mp hsort with ⟨hsa, hsrest⟩
    rcases List.pairwise_cons.mp hidx with ⟨hia, hirest⟩
    by_cases hk : a.2.virus_tax_id = x.2.virus_tax_id
    · rw [List.find?_cons_of_pos _ (by simp [hk])]
      constructor
      · intro hax
        have hax' : a = x := Option.some.inj hax
        subst hax'
        refine ⟨List.mem_cons_self _ _, fun q hq hkq => ?_⟩
        rcases List.mem_cons.mp hq with hq | hq
        · exact hq ▸ keyPosLe_refl p a
        · exact hsa q hq
      · rintro ⟨hmem, hmin⟩
        rcases List.mem_cons.mp hmem with hmem | hmem
        · exact hmem ▸ rfl
        · have h₁ : keyPosLe p x a = true := hmin a (List.mem_cons_self _ _) hk
          have h₂ : keyPosLe p a x = true := hsa x hmem
          exact absurd (keyPosLe_antisymm_idx p x a h₁ h₂) (fun h => hia x hmem h.symm)
    · rw [List.find?_cons_of_neg _ (by simp [hk])]
      rw [ih hsrest hirest]
      constructor
      · rintro ⟨hmem, hmin⟩
        refine ⟨List.mem_cons_of_mem _ hmem, fun q hq hkq => ?_⟩
        rcases List.mem_cons.mp hq with hq | hq
        · exact absurd (hq ▸ hkq) hk
        · exact hmin q hq hkq
      · rintro ⟨hmem, hmin⟩
        rcases List.mem_cons.mp hmem with hmem | hmem
        · exact absurd (hmem ▸ rfl) hk
        · exact ⟨hmem, fun q hq hkq => hmin q (List.mem_cons_of_mem _ hq) hkq⟩

theorem dedup_kept_iff (rows : List Row) (prefer : Bool) (x : Nat × Row) :
    x ∈ dropDupFirst [] (sortByLe (keyPosLe prefer) rows.enum) ↔
      x ∈ rows.enum ∧
        ∀ q ∈ rows.enum, q.2.virus_tax_id = x.2.virus_tax_id →
          keyPosLe prefer x q = true := by
  have hperm := sortByLe_perm (keyPosLe prefer) rows.enum
  have hsort := sortByLe_pairwise (keyPosLe prefer) (keyPosLe_trans prefer)
      (keyPosLe_total prefer) rows.enum
  have hnodup : (rows.enum.map Prod.fst).Nodup := by
    rw [List.enum_map_fst]
    exact List.nodup_range _
  have hnodup' : ((sortByLe (keyPosLe prefer) rows.enum).map Prod.fst).Nodup :=
    ((hperm.map Prod.fst).nodup_iff).mpr hnodup
  have hidx : (sortByLe (keyPosLe prefer) rows.enum).Pairwise (fun a b => a.1 ≠ b.1) :=
    List.pairwise_map.mp hnodup'
  rw [dropDupFirst_mem_iff, find?_key_sorted prefer _ hsort hidx x]
  simp only [List.not_mem_nil, not_false_iff, true_and]
  constructor
  · rintro ⟨hm, hmin⟩
    exact ⟨hperm.mem_iff.mp hm, fun q hq hk => hmin q (hperm.mem_iff.mpr hq) hk⟩
  · rintro ⟨hm, hmin⟩
    exact ⟨hperm.mem_iff.mpr hm, fun q hq hk => hmin q (hperm.mem_iff.mp hq) hk⟩

theorem deduplicate_subset (rows : List Row) (prefer : Bool) :
    ∀ r ∈ deduplicate_by_evidence rows prefer, r ∈ rows := by
  intro r hr
  unfold deduplicate_by_evidence at hr
  rcases List.mem_map.mp hr with ⟨x, hx, hxr⟩
  have hx' : x ∈ rows.enum :=
    (sortByLe_perm (keyPosLe prefer) rows.enum).mem_iff.mp (dropDupFirst_subset _ [] x hx)
  have hsnd : x.2 ∈ rows.enum.map Prod.snd := List.mem_map_of_mem Prod.snd hx'
  rw [List.enum_map_snd] at hsnd
  exact hxr ▸ hsnd

theorem deduplicate_keys_nodup (rows : List Row) (prefer : Bool) :
    ((deduplicate_by_evidence rows prefer).map Row.virus_tax_id).Nodup := by
  unfold deduplicate_by_evidence
  rw [List.map_map]
  exact (dropDupFirst_keys_nodup _ []).1

/-- C5 counterexample: two rows of the same virus, neither with a human
host — the first has absent host id and top-priority Literature evidence,
the second a present murine host id and bottom-priority UniProt evidence.
The claim's order (evidence rank alone among non-human rows) would keep the
Literature row, but `deduplicate_by_evidence` with `prefer_human=True`
keeps the UniProt row: the pandas sort places the missing
`host_tax_id == 9606` comparison last, after all `False` entries. -/
theorem deduplicate_by_evidence_counterexample :
    deduplicate_by_evidence [rowDupNoHost, rowDupOtherHost] true = [rowDupOtherHost] ∧
    rowDupNoHost.virus_tax_id = rowDupOtherHost.virus_tax_id ∧
    rowDupNoHost.host_tax_id ≠ some HUMAN_TAXID ∧
    rowDupOtherHost.host_tax_id ≠ some HUMAN_TAXID ∧
    evidenceRank rowDupNoHost.evidence < evidenceRank rowDupOtherHost.evidence := by
  decide

/-- C5 (amended): `deduplicate_by_evidence` groups rows by virus identifier
and keeps exactly one row per group, always a row minimizing the composite
key `dedupKey`: with `prefer_human`, human-host rows first, then non-human
rows with a present host identifier, then rows with an absent host
identifier (pandas places the missing comparison result last), and within
each of those classes evidence rank Literature=0 < RefSeq=1 < UniProt=2 <
unknown=99 ascending; without `prefer_human`, evidence rank alone.  With
`prefer_human` the multi-key pandas sort is stable, so rows tied under the
key are kept by original input order (the full first-under-(key, position)
characterization below); without `prefer_human` the single-key sort uses
pandas' default quicksort, which guarantees no particular order among
equal-rank rows, so only minimality of the surviving row's key is asserted.
A group with a single member passes its row through regardless of its
evidence value. -/
theorem deduplicate_by_evidence_spec :
    ∀ (rows : List Row) (prefer_human : Bool),
      ((deduplicate_by_evidence rows prefer_human).map Row.virus_tax_id).Nodup ∧
      (∀ r ∈ deduplicate_by_evidence rows prefer_human, r ∈ rows) ∧
      (∀ q ∈ rows, ∃ r ∈ deduplicate_by_evidence rows prefer_human,
        r.virus_tax_id = q.virus_tax_id) ∧
      (∀ r ∈ deduplicate_by_evidence rows prefer_human,
        ∀ q ∈ rows, q.virus_tax_id = r.virus_tax_id →
          (dedupKey prefer_human r).1 < (dedupKey prefer_human q).1 ∨
            ((dedupKey prefer_human r).1 = (dedupKey prefer_human q).1 ∧
              (dedupKey prefer_human r).2 ≤ (dedupKey prefer_human q).2)) ∧
      (∀ x : Nat × Row,
        x ∈ dropDupFirst [] (sortByLe (keyPosLe true) rows.enum) ↔
          x ∈ rows.enum ∧
            ∀ q ∈ rows.enum, q.2.virus_tax_id = x.2.virus_tax_id →
              keyPosLe true x q = true) ∧
      (∀ x : Nat × Row, x ∈ rows.enum →
        (∀ q ∈ rows.enum, q ≠ x → q.2.virus_tax_id ≠ x.2.virus_tax_id) →
        x.2 ∈ deduplicate_by_evidence rows prefer_human) := by
  intro rows prefer
  refine ⟨deduplicate_keys_nodup rows prefer, deduplicate_subset rows prefer, ?_, ?_,
    fun x => dedup_kept_iff rows true x, ?_⟩
  · intro q hq
    have hq2 : q ∈ rows.enum.map Prod.snd := by
      rw [List.enum_map_snd]
      exact hq
    obtain ⟨x, hx, hxq⟩ := List.mem_map.mp hq2
    have hx' : x ∈ sortByLe (keyPosLe prefer) rows.enum :=
      (sortByLe_perm (keyPosLe prefer) rows.enum).mem_iff.mpr hx
    have hsome : ((sortByLe (keyPosLe prefer) rows.enum).find?
        (fun y => y.2.virus_tax_id == q.virus_tax_id)).isSome :=
      List.find?_isSome.mpr ⟨x, hx', by simp [hxq]⟩
    obtain ⟨m, hm⟩ := Option.isSome_iff_exists.mp hsome
    have hpred : m.2.virus_tax_id = q.virus_tax_id := by
      simpa using List.find?_some hm
    have hmm : (sortByLe (keyPosLe prefer) rows.enum).find?
        (fun y => y.2.virus_tax_id == m.2.virus_tax_id) = some m := by
      rw [hpred]
      exact hm
    have hkept : m ∈ dropDupFirst [] (sortByLe (keyPosLe prefer) rows.enum) :=
      (dropDupFirst_mem_iff _ [] m).mpr ⟨by simp, hmm⟩
    exact ⟨m.2, List.mem_map_of_mem (fun a => a.2) hkept, hpred⟩
  · intro r hr q hq hk
    obtain ⟨x, hx, hxr⟩ := List.mem_map.mp hr
    have hmin := ((dedup_kept_iff rows prefer x).mp hx).2
    have hq2 : q ∈ rows.enum.map Prod.snd := by
      rw [List.enum_map_snd]
      exact hq
    obtain ⟨y, hy, hyq⟩ := List.mem_map.mp hq2
    have hle := hmin y hy (by rw [hyq, hxr, hk])
    simp only [keyPosLe, decide_eq_true_eq] at hle
    rw [← hxr, ← hyq]
    omega
  · intro x hx hsingle
    have hkept : x ∈ dropDupFirst [] (sortByLe (keyPosLe prefer) rows.enum) := by
      refine (dedup_kept_iff rows prefer x).mpr ⟨hx, fun q hq hk => ?_⟩
      by_cases hqx : q = x
      · exact hqx ▸ keyPosLe_refl prefer q
      · exact absurd hk (hsingle q hq hqx)
    exact List.mem_map_of_mem (fun a => a.2) hkept

theorem deduplicate_by_evidence_spec_witness :
    rowHIV ∈ deduplicate_by_evidence [rowHIV] true :=
  (deduplicate_by_evidence_spec [rowHIV] true).2.2.2.2.2 (0, rowHIV) (by decide)
    (fun q hq hne => absurd (List.mem_singleton.mp hq) hne)

theorem validate_isValid_iff (env : ValidateEnv) :
    (validate_catalog env).is_valid = false ↔ (validate_catalog env).errors ≠ [] := by
  rcases env with ⟨ce, me, md, cat, se, hsh⟩
  cases ce
  · simp [validate_catalog]
  · cases me
    · simp [validate_catalog]
    · cases md with
      | none => simp [validate_catalog]
      | some m =>
        cases cat with
        | none => simp [validate_catalog]
        | some c =>
          cases hmt : m.total_taxa with
          | none => simp [validate_catalog, hmt]
          | some expected =>
            by_cases hc : (c.length : Int) = expected
            · simp [validate_catalog, hmt, hc]
            · simp [validate_catalog, hmt, hc]

/-- C9: a validation result is invalid exactly when its error bucket is
non-empty (warnings never invalidate); a declared/actual row-count mismatch
records a fatal error carrying both numbers while the family-count and
source-hash checks still run; a declared/actual distinct-family-count
mismatch records only a non-fatal warning. -/
theorem validate_catalog_spec :
    ∀ env : ValidateEnv,
      ((validate_catalog env).is_valid = false ↔ (validate_catalog env).errors ≠ []) ∧
      (∀ md cat expected,
        env.catalog_exists = true → env.metadata_exists = true →
        env.metadata = some md → env.catalog = some cat →
        md.total_taxa = some expected → (cat.length : Int) ≠ expected →
        (("Taxa count mismatch: catalog has " ++ toString cat.length ++
            ", metadata says " ++ toString expected) ∈ (validate_catalog env).errors ∧
         (validate_catalog env).is_valid = false ∧
         (∀ ef, md.unique_families = some ef → (nuniqueFamilies cat : Int) ≠ ef →
           ("Family count mismatch: " ++ toString (nuniqueFamilies cat) ++ " vs " ++
             toString ef) ∈ (validate_catalog env).warnings) ∧
         (∀ sp sh, md.source_file_path = some sp → sp ≠ "" →
           md.source_file_sha256 = some sh → sh ≠ "" → env.source_exists = false →
           "Source VHDB not found" ∈ (validate_catalog env).warnings))) ∧
      (∀ md cat ef,
        env.catalog_exists = true → env.metadata_exists = true →
        env.metadata = some md → env.catalog = some cat →
        md.unique_families = some ef → (nuniqueFamilies cat : Int) ≠ ef →
        md.total_taxa = none →
        ("Family count mismatch: " ++ toString (nuniqueFamilies cat) ++ " vs " ++
            toString ef) ∈ (validate_catalog env).warnings ∧
        (validate_catalog env).errors = [] ∧
        (validate_catalog env).is_valid = true) := by
  intro env
  refine ⟨validate_isValid_iff env, ?_, ?_⟩
  · intro md cat expected hce hme hmd hcat hmt hne
    rcases env with ⟨ce, me, md0, cat0, se, hsh⟩
    simp only at hce hme hmd hcat
    subst hce
    subst hme
    subst hmd
    subst hcat
    refine ⟨?_, ?_, ?_, ?_⟩
    · simp [validate_catalog, hmt, hne]
    · simp [validate_catalog, hmt, hne]
    · intro ef hef hnef
      simp [validate_catalog, hmt, hne, hef, hnef]
    · intro sp sh hsp hspne hsh2 hshne hse
      subst hse
      simp [validate_catalog, hsp, hsh2, pyTruthyStr, hspne, hshne]
  · intro md cat ef hce hme hmd hcat hef hnef hmt
    rcases env with ⟨ce, me, md0, cat0, se, hsh⟩
    simp only at hce hme hmd hcat
    subst hce
    subst hme
    subst hmd
    subst hcat
    refine ⟨?_, ?_, ?_⟩
    · simp [validate_catalog, hef, hnef]
    · simp [validate_catalog, hmt]
    · simp [validate_catalog, hmt]

theorem validate_catalog_spec_witness :
    ("Taxa count mismatch: catalog has 2, metadata says 3"
        ∈ (validate_catalog
            { catalog_exists := true, metadata_exists := true,
              metadata := some
                { version := some "1.0", total_taxa := some 3, unique_families := some 5,
                  source_file_path := some "vhdb.tsv", source_file_sha256 := some "abcd1234",
                  has_generation := false, generation_timestamp := none,
                  generation_version := none, has_parameters := false, param_mode := none,
                  param_exclude_bacteriophages := none },
              catalog := some [some "Retroviridae", some "Flaviviridae"],
              source_exists := false, current_source_hash := "ffff" }).errors) ∧
      ("Family count mismatch: 2 vs 5"
        ∈ (validate_catalog
            { catalog_exists := true, metadata_exists := true,
              metadata := some
                { version := some "1.0", total_taxa := some 3, unique_families := some 5,
                  source_file_path := some "vhdb.tsv", source_file_sha256 := some "abcd1234",
                  has_generation := false, generation_timestamp := none,
                  generation_version := none, has_parameters := false, param_mode := none,
                  param_exclude_bacteriophages := none },
              catalog := some [some "Retroviridae", some "Flaviviridae"],
              source_exists := false, current_source_hash := "ffff" }).warnings) := by
  have h := (validate_catalog_spec
      { catalog_exists := true, metadata_exists := true,
        metadata := some
          { version := some "1.0", total_taxa := some 3, unique_families := some 5,
            source_file_path := some "vhdb.tsv", source_file_sha256 := some "abcd1234",
            has_generation := false, generation_timestamp := none,
            generation_version := none, has_parameters := false, param_mode := none,
            param_exclude_bacteriophages := none },
        catalog := some [some "Retroviridae", some "Flaviviridae"],
        source_exists := false, current_source_hash := "ffff" }).2.1
      _ _ 3 rfl rfl rfl rfl rfl (by decide)
  exact ⟨h.1, h.2.2.1 5 rfl (by decide)⟩

/-! ### RefSeq parsing facts -/

theorem pySplit_ne_nil (delim : Char → Bool) (l : List Char) : pySplit delim l ≠ [] := by
  induction l with
  | nil => simp [pySplit]
  | cons c rest ih =>
    simp only [pySplit]
    by_cases hc : delim c
    · rw [if_pos hc]
      simp
    · rw [if_neg hc]
      rcases hsp : pySplit delim rest with _ | ⟨t, ts⟩
      · exact absurd hsp ih
      · simp

theorem pySplit_mem_of_mem (delim : Char → Bool) (l : List Char) (c : Char)
    (hc : c ∈ l) (hnd : delim c = false) : ∃ t ∈ pySplit delim l, c ∈ t := by
  induction l with
  | nil => cases hc
  | cons a rest ih =>
    simp only [pySplit]
    by_cases ha : delim a
    · rw [if_pos ha]
      have hcr : c ∈ rest := by
        rcases List.mem_cons.mp hc with hca | hcr
        · rw [hca] at hnd
          rw [hnd] at ha
          cases ha
        · exact hcr
      rcases ih hcr with ⟨t, ht, hct⟩
      exact ⟨t, List.mem_cons_of_mem _ ht, hct⟩
    · rw [if_neg ha]
      rcases hsp : pySplit delim rest with _ | ⟨t₀, ts⟩
      · exact absurd hsp (pySplit_ne_nil delim rest)
      · rcases List.mem_cons.mp hc with hca | hcr
        · exact ⟨a :: t₀, List.mem_cons_self _ _, hca ▸ List.mem_cons_self _ _⟩
        · rcases ih hcr with ⟨t, ht, hct⟩
          rw [hsp] at ht
          rcases List.mem_cons.mp ht with ht | ht
          · exact ⟨a :: t₀, List.mem_cons_self _ _, ht ▸ List.mem_cons_of_mem a hct⟩
          · exact ⟨t, List.mem_cons_of_mem _ ht, hct⟩

theorem mem_dropWhile_of_neg (p : Char → Bool) (l : List Char) (c : Char)
    (hp : p c = false) (hc : c ∈ l) : c ∈ l.dropWhile p := by
  induction l with
  | nil => cases hc
  | cons a rest ih =>
    by_cases ha : p a
    · rw [List.dropWhile_cons_of_pos ha]
      rcases List.mem_cons.mp hc with hca | hcr
      · rw [hca] at hp
        rw [hp] at ha
        cases ha
      · exact ih hcr
    · rw [List.dropWhile_cons_of_neg ha]
      exact hc

theorem mem_pyStrip (l : List Char) (c : Char) (hp : pySpace c = false) (hc : c ∈ l) :
    c ∈ pyStrip l := by
  unfold pyStrip
  rw [List.mem_reverse]
  refine mem_dropWhile_of_neg pySpace _ c hp ?_
  rw [List.mem_reverse]
  exact mem_dropWhile_of_neg pySpace l c hp hc

theorem parse_refseq_ids_ne_nil (s : String)
    (h : ∃ ch ∈ s.toList, pySpace ch = false ∧ ch ≠ ',' ∧ ch ≠ ';') :
    parse_refseq_ids (some s) ≠ [] := by
  rcases h with ⟨c, hc, hsp, hcm, hsc⟩
  have hs : s ≠ "" := by
    intro he
    rw [he] at hc
    cases hc
  rw [parse_refseq_ids, if_neg hs]
  have hnd : (decide (c = ',') || decide (c = ';')) = false := by
    simp [hcm, hsc]
  rcases pySplit_mem_of_mem (fun c => decide (c = ',') || decide (c = ';')) s.toList c hc hnd
    with ⟨t, ht, hct⟩
  have hcs : c ∈ pyStrip t := mem_pyStrip t c hsp hct
  have hne : pyStrip t ≠ [] := List.ne_nil_of_mem hcs
  have hmem1 : pyStrip t ∈
      (pySplit (fun c => decide (c = ',') || decide (c = ';')) s.toList).map pyStrip :=
    List.mem_map_of_mem pyStrip ht
  have hmem2 : pyStrip t ∈
      ((pySplit (fun c => decide (c = ',') || decide (c = ';')) s.toList).map pyStrip).filter
        (fun l => decide (l ≠ [])) :=
    List.mem_filter.mpr ⟨hmem1, by simpa using hne⟩
  exact List.ne_nil_of_mem (List.mem_map_of_mem (fun l => String.mk l) hmem2)

/-! ### Builder stage lemmas -/

/-- The optional bacteriophage-exclusion step only removes rows. -/
theorem bact_step_sublist (eb : Bool) (l : List Row) :
    (if eb then filter_bacteriophages l true else l).Sublist l := by
  cases eb
  · simp
  · simp only [if_pos rfl, filter_bacteriophages]
    exact List.filter_sublist l

theorem mainCatalogRows_struct (df : List Row) (mode : String) (eb : Bool)
    (main : List Row) (h : mainCatalogRows df mode eb = some main) :
    ∃ filtered, filter_by_host df mode = some filtered ∧
      main.Sublist (deduplicate_by_evidence filtered true) ∧
      ∀ r ∈ main, hasRefseqVal r.refseq_id = true := by
  rcases hf : filter_by_host df mode with _ | filtered
  · rw [mainCatalogRows, hf] at h
    cases h
  · rw [mainCatalogRows, hf] at h
    simp only [Option.map_some', Option.some.injEq] at h
    subst h
    refine ⟨filtered, rfl, ?_, ?_⟩
    · exact (bact_step_sublist eb _).trans
        (List.filter_sublist (deduplicate_by_evidence filtered true))
    · intro r hr
      have hr' : r ∈ filter_with_refseq (deduplicate_by_evidence filtered true) :=
        (bact_step_sublist eb _).subset hr
      exact (List.mem_filter.mp hr').2

theorem get_primate_homologs_refseq (df : List Row) (p : String)
    (fams : Option (List String)) (raw : List Row)
    (h : get_primate_homologs df p fams = some raw) :
    ∀ r ∈ raw, hasRefseqVal r.refseq_id = true := by
  intro r hr
  by_cases hv : p ∈ VALID_PRIMATE_MODES
  · rw [get_primate_homologs, if_pos hv] at h
    by_cases hn : p = "none"
    · rw [if_pos hn] at h
      cases h
      cases hr
    · rw [if_neg hn] at h
      rcases fams with _ | fs
      · dsimp only at h
        simp only [Option.some.injEq] at h
        subst h
        exact (List.mem_filter.mp hr).2
      · dsimp only at h
        by_cases hfs : fs.isEmpty
        · rw [if_pos hfs] at h
          simp only [Option.some.injEq] at h
          subst h
          exact (List.mem_filter.mp hr).2
        · rw [if_neg hfs] at h
          simp only [Option.some.injEq] at h
          subst h
          have hr' := (List.mem_filter.mp hr).1
          exact (List.mem_filter.mp hr').2
  · rw [get_primate_homologs, if_neg hv] at h
    cases h

theorem homologRows_struct (df : List Row) (eb : Bool) (p : String)
    (fams : Option (List String)) (homs : List Row)
    (h : homologRows df eb p fams = some homs) :
    ∃ raw, get_primate_homologs df p fams = some raw ∧
      homs.Sublist (deduplicate_by_evidence raw false) ∧
      ∀ r ∈ homs, hasRefseqVal r.refseq_id = true := by
  rcases hg : get_primate_homologs df p fams with _ | raw
  · rw [homologRows, hg] at h
    cases h
  · rw [homologRows, hg] at h
    simp only [Option.map_some', Option.some.injEq] at h
    subst h
    refine ⟨raw, rfl, bact_step_sublist eb _, ?_⟩
    intro r hr
    have hr' : r ∈ deduplicate_by_evidence raw false := (bact_step_sublist eb _).subset hr
    exact get_primate_homologs_refseq df p fams raw hg r (deduplicate_subset raw false r hr')

theorem build_catalog_none_eq (df : List Row) (mode : String) (eb : Bool)
    (fams : Option (List String)) :
    build_catalog df mode eb "none" fams =
      (mainCatalogRows df mode eb).map (fun main => main.map buildRecord) := by
  unfold build_catalog mainCatalogRows
  rcases filter_by_host df mode with _ | filtered
  · rfl
  · simp only [Option.map_some']
    rw [if_neg (by simp)]

theorem build_catalog_merge_eq (df : List Row) (mode : String) (eb : Bool) (p : String)
    (fams : Option (List String)) (hp : p ≠ "none") :
    build_catalog df mode eb p fams =
      (mainCatalogRows df mode eb).bind (fun main =>
        (homologRows df eb p fams).map (fun homs =>
          (main ++ homs.filter
            (fun r => r.virus_tax_id ∉ main.map Row.virus_tax_id)).map buildRecord)) := by
  unfold build_catalog mainCatalogRows homologRows
  rcases filter_by_host df mode with _ | filtered
  · rfl
  · simp only [Option.map_some', Option.some_bind]
    rw [if_pos hp]
    rcases get_primate_homologs df p fams with _ | homologs
    · rfl
    · simp only [Option.map_some']
      by_cases hlen : homologs.length > 0
      · rw [if_pos hlen]
      · rw [if_neg hlen]
        have hnil : homologs = [] := List.length_eq_zero.mp (by omega)
        subst hnil
        cases eb <;>
          simp [deduplicate_by_evidence, sortByLe, dropDupFirst, filter_bacteriophages]

/-! ### Catalog construction (C1) -/

/-- C1: with primate homologs requested, `build_catalog` computes the
homolog rows by `get_primate_homologs` over the original unfiltered table
(not the host-filtered subset), deduplicates them with
`prefer_human=False`, applies the same bacteriophage exclusion policy
(`homologRows`), and merges them into the main result excluding every
homolog whose virus identifier already exists there, so the main-catalog
entry always wins for a shared identifier. -/
theorem build_catalog_homolog_spec :
    ∀ (df : List Row) (mode : String) (eb : Bool) (p : String)
      (fams : Option (List String)) (out : List CatalogRow),
      p ≠ "none" →
      build_catalog df mode eb p fams = some out →
      ∃ main homs,
        mainCatalogRows df mode eb = some main ∧
        homologRows df eb p fams = some homs ∧
        out = (main ++ homs.filter
            (fun r => r.virus_tax_id ∉ main.map Row.virus_tax_id)).map buildRecord ∧
        (∀ c ∈ out, c.taxid ∈ main.map Row.virus_tax_id → c ∈ main.map buildRecord) ∧
        (∀ c ∈ out, c ∈ main.map buildRecord ∨
          ∃ h ∈ homs, h.virus_tax_id ∉ main.map Row.virus_tax_id ∧ c = buildRecord h) := by
  intro df mode eb p fams out hp hb
  rw [build_catalog_merge_eq df mode eb p fams hp] at hb
  rcases hm : mainCatalogRows df mode eb with _ | main
  · rw [hm] at hb
    cases hb
  · rw [hm] at hb
    simp only [Option.some_bind] at hb
    rcases hh : homologRows df eb p fams with _ | homs
    · rw [hh] at hb
      cases hb
    · rw [hh] at hb
      simp only [Option.map_some', Option.some.injEq] at hb
      subst hb
      refine ⟨main, homs, rfl, rfl, rfl, ?_, ?_⟩
      · intro c hc hctax
        rcases List.mem_map.mp hc with ⟨r, hr, hcr⟩
        rcases List.mem_append.mp hr with hr | hr
        · exact hcr ▸ List.mem_map_of_mem buildRecord hr
        · have hnot := (List.mem_filter.mp hr).2
          simp only [decide_eq_true_eq] at hnot
          have : c.taxid = r.virus_tax_id := by rw [← hcr]; rfl
          exact absurd (this ▸ hctax) hnot
      · intro c hc
        rcases List.mem_map.mp hc with ⟨r, hr, hcr⟩
        rcases List.mem_append.mp hr with hr | hr
        · exact Or.inl (hcr ▸ List.mem_map_of_mem buildRecord hr)
        · rcases List.mem_filter.mp hr with ⟨hrh, hnot⟩
          simp only [decide_eq_true_eq] at hnot
          exact Or.inr ⟨r, hrh, hnot, hcr.symm⟩

theorem build_catalog_homolog_spec_witness :
    ∃ main homs,
      mainCatalogRows [rowHIV, rowChimpHerpes] "clinical" true = some main ∧
      homologRows [rowHIV, rowChimpHerpes] true "strict" none = some homs ∧
      [buildRecord rowHIV, buildRecord rowChimpHerpes]
          = (main ++ homs.filter
              (fun r => r.virus_tax_id ∉ main.map Row.virus_tax_id)).map buildRecord ∧
      (∀ c ∈ [buildRecord rowHIV, buildRecord rowChimpHerpes],
        c.taxid ∈ main.map Row.virus_tax_id → c ∈ main.map buildRecord) ∧
      (∀ c ∈ [buildRecord rowHIV, buildRecord rowChimpHerpes],
        c ∈ main.map buildRecord ∨
          ∃ h ∈ homs, h.virus_tax_id ∉ main.map Row.virus_tax_id ∧ c = buildRecord h) :=
  build_catalog_homolog_spec [rowHIV, rowChimpHerpes] "clinical" true "strict" none
    [buildRecord rowHIV, buildRecord rowChimpHerpes] (by decide) (by decide)

/-! ### Catalog identifier uniqueness (C2) -/

/-- C2: every catalog that `build_catalog` returns has pairwise-distinct
virus identifiers: deduplication leaves at most one row per identifier and
the homolog merge excludes identifiers already present in the main
result. -/
theorem build_catalog_unique_taxids :
    ∀ (df : List Row) (mode : String) (eb : Bool) (p : String)
      (fams : Option (List String)) (out : List CatalogRow),
      build_catalog df mode eb p fams = some out →
      (out.map CatalogRow.taxid).Nodup := by
  intro df mode eb p fams out hb
  have hmapmap : ∀ l : List Row,
      ((l.map buildRecord).map CatalogRow.taxid) = l.map Row.virus_tax_id := by
    intro l
    rw [List.map_map]
    rfl
  by_cases hp : p = "none"
  · subst hp
    rw [build_catalog_none_eq] at hb
    rcases hm : mainCatalogRows df mode eb with _ | main
    · rw [hm] at hb
      cases hb
    · rw [hm] at hb
      simp only [Option.map_some', Option.some.injEq] at hb
      subst hb
      rw [hmapmap]
      rcases mainCatalogRows_struct df mode eb main hm with ⟨filtered, _, hsub, _⟩
      exact (deduplicate_keys_nodup filtered true).sublist (hsub.map Row.virus_tax_id)
  · rcases build_catalog_homolog_spec df mode eb p fams out hp hb with
      ⟨main, homs, hm, hh, hout, _, _⟩
    subst hout
    rw [hmapmap, List.map_append, List.nodup_append]
    refine ⟨?_, ?_, ?_⟩
    · rcases mainCatalogRows_struct df mode eb main hm with ⟨filtered, _, hsub, _⟩
      exact (deduplicate_keys_nodup filtered true).sublist (hsub.map Row.virus_tax_id)
    · rcases homologRows_struct df eb p fams homs hh with ⟨raw, _, hsub, _⟩
      exact (deduplicate_keys_nodup raw false).sublist
        (((List.filter_sublist homs).trans hsub).map Row.virus_tax_id)
    · intro a ha hb2
      rcases List.mem_map.mp hb2 with ⟨r, hr, hra⟩
      have hnot := (List.mem_filter.mp hr).2
      simp only [decide_eq_true_eq] at hnot
      exact hnot (hra ▸ ha)

theorem build_catalog_unique_taxids_witness :
    (([buildRecord rowHIV].map CatalogRow.taxid)).Nodup :=
  build_catalog_unique_taxids [rowHIV] "clinical" true "none" none [buildRecord rowHIV]
    (by decide)

/-! ### Catalog accession lists (C4) -/

/-- C4 counterexample: a human-host row whose RefSeq field is the one-blank
string `" "` passes `filter_with_refseq` (present and non-empty), yet
`parse_refseq_ids` extracts an empty accession list, so the built catalog
contains a row with no accession. -/
theorem build_catalog_refseq_counterexample :
    build_catalog [rowBlankRefseq] "clinical" true "none" none
        = some [buildRecord rowBlankRefseq] ∧
    (buildRecord rowBlankRefseq).refseq_ids = [] ∧
    rowBlankRefseq.refseq_id = some " " ∧ (" " : String) ≠ "" := by
  decide

/-- C4 (amended): every row of every catalog built by `build_catalog` stems
from a source row whose RefSeq field is present and non-empty, and its
accession list is that field parsed by `parse_refseq_ids`; the list is
non-empty whenever the field contains at least one character that is
neither whitespace nor one of the separators `,`/`;` (a field made only of
such characters yields an empty list). -/
theorem build_catalog_refseq_spec :
    ∀ (df : List Row) (mode : String) (eb : Bool) (p : String)
      (fams : Option (List String)) (out : List CatalogRow),
      build_catalog df mode eb p fams = some out →
      ∀ c ∈ out, ∃ s : String, s ≠ "" ∧ c.refseq_ids = parse_refseq_ids (some s) ∧
        ((∃ ch ∈ s.toList, pySpace ch = false ∧ ch ≠ ',' ∧ ch ≠ ';') →
          c.refseq_ids ≠ []) := by
  intro df mode eb p fams out hb c hc
  have hrow : ∃ r : Row, c = buildRecord r ∧ hasRefseqVal r.refseq_id = true := by
    by_cases hp : p = "none"
    · subst hp
      rw [build_catalog_none_eq] at hb
      rcases hm : mainCatalogRows df mode eb with _ | main
      · rw [hm] at hb
        cases hb
      · rw [hm] at hb
        simp only [Option.map_some', Option.some.injEq] at hb
        subst hb
        rcases List.mem_map.mp hc with ⟨r, hr, hcr⟩
        rcases mainCatalogRows_struct df mode eb main hm with ⟨filtered, _, _, href⟩
        exact ⟨r, hcr.symm, href r hr⟩
    · rcases build_catalog_homolog_spec df mode eb p fams out hp hb with
        ⟨main, homs, hm, hh, hout, _, _⟩
      subst hout
      rcases List.mem_map.mp hc with ⟨r, hr, hcr⟩
      rcases List.mem_append.mp hr with hr | hr
      · rcases mainCatalogRows_struct df mode eb main hm with ⟨filtered, _, _, href⟩
        exact ⟨r, hcr.symm, href r hr⟩
      · rcases homologRows_struct df eb p fams homs hh with ⟨raw, _, _, href⟩
        exact ⟨r, hcr.symm, href r ((List.filter_sublist homs).subset hr)⟩
  rcases hrow with ⟨r, hcr, href⟩
  rcases hrs : r.refseq_id with _ | s
  · rw [hrs] at href
    cases href
  · rw [hrs] at href
    have hsne : s ≠ "" := by simpa [hasRefseqVal] using href
    refine ⟨s, hsne, ?_, ?_⟩
    · rw [hcr]
      show parse_refseq_ids r.refseq_id = parse_refseq_ids (some s)
      rw [hrs]
    · intro hex
      rw [hcr]
      show parse_refseq_ids r.refseq_id ≠ []
      rw [hrs]
      exact parse_refseq_ids_ne_nil s hex

theorem build_catalog_refseq_spec_witness :
    ∃ s : String, s ≠ "" ∧
      (buildRecord rowHIV).refseq_ids = parse_refseq_ids (some s) ∧
      ((∃ ch ∈ s.toList, pySpace ch = false ∧ ch ≠ ',' ∧ ch ≠ ';') →
        (buildRecord rowHIV).refseq_ids ≠ []) :=
  build_catalog_refseq_spec [rowHIV] "clinical" true "none" none [buildRecord rowHIV]
    (by decide) (buildRecord rowHIV) (by decide)

end Virotaxa
